import Mathlib

/-!
Shallow embedding of the CSV-to-database ETL pipeline of this repository
(src/complete_etl.py together with src/repositories/page_repository.py,
src/repositories/category_repository.py and src/repositories/base_repository.py).

Storage is modelled as an explicit DB value threaded through every
operation; each repository method becomes a pure function from the old
database to its result and the new database.  Storage errors that the real
code can encounter (a failing INSERT) are modelled by an Env of
failure flags, and a raised exception that escapes a repository method is
modelled by Except.  Every definition mirrors one Python function.
-/

namespace KRA

/-- ASCII lower-casing of one character, as SQL LOWER and Python str.lower
act on the letters appearing in this data. -/
def lowerChar (c : Char) : Char :=
  if 'A' ≤ c && c ≤ 'Z' then Char.ofNat (c.toNat + 32) else c

/-- ASCII lower-casing of a string. -/
def strLower (s : String) : String := ⟨s.data.map lowerChar⟩

/-- The whitespace recognized by the model of Python str.strip. -/
def isWs (c : Char) : Bool := c == ' ' || c == '\t' || c == '\n' || c == '\r'

/-- Python str.strip(): remove leading and trailing whitespace. -/
def strTrim (s : String) : String :=
  ⟨((s.data.dropWhile isWs).reverse.dropWhile isWs).reverse⟩

/-- The value of a non-empty all-digit character list, none otherwise. -/
def digitsVal (l : List Char) : Option Nat :=
  if l = [] then none
  else if l.all (fun c => c.isDigit) then
    some (l.foldl (fun a c => a * 10 + (c.toNat - 48)) 0)
  else none

/-- Python str.split applied with the semicolon separator: every separator
occurrence cuts, empty pieces are kept. -/
def splitSemiAux : List Char → List Char → List String
  | [], acc => [⟨acc.reverse⟩]
  | c :: rest, acc =>
    if c = ';' then ⟨acc.reverse⟩ :: splitSemiAux rest [] else splitSemiAux rest (c :: acc)

/-- Python str.split(sep) for the semicolon separator of the categories
field. -/
def splitSemi (s : String) : List String := splitSemiAux s.data []

/-- Case-insensitive string comparison: models the SQL predicate
LOWER(x) = LOWER(:y) used by PageRepository.get_by_title and
CategoryRepository.get_by_name. -/
def ciEq (s t : String) : Bool := strLower s == strLower t

/-- One CSV cell as the ETL sees it after pandas parsing: the column may be
absent from the file, the cell may be empty (pandas NaN), or it holds a
string or an integral number. -/
inductive Cell
  | missing
  | nan
  | str (s : String)
  | num (n : Int)
deriving Repr, DecidableEq

/-- Python str(row.get(col, dflt)): the default is used when the column is
absent; str of pandas NaN is the three-letter string nan. -/
def cellStr (dflt : String) : Cell → String
  | .missing => dflt
  | .nan => "nan"
  | .str s => s
  | .num n => toString n

/-- Python int(s) applied to a string: surrounding whitespace, an optional
sign, then digits; anything else raises ValueError, modelled as none. -/
def pyIntOfString (s : String) : Option Int :=
  match (strTrim s).data with
  | '-' :: rest => (digitsVal rest).map (fun n => -(n : Int))
  | '+' :: rest => (digitsVal rest).map (fun n => (n : Int))
  | l => (digitsVal l).map (fun n => (n : Int))

/-- The view-count conversion int(row.get(view_count, 0) or 0) from
process_row_with_repository.  none models a raised ValueError: pandas NaN
is truthy in Python, so a NaN cell reaches int() and raises; a non-numeric
string raises as well.  An absent column yields the row.get default 0 and
an empty string is falsy, so both convert to 0. -/
def viewsOf : Cell → Option Int
  | .missing => some 0
  | .nan => none
  | .str s => if s = "" then some 0 else pyIntOfString s
  | .num n => some n

/-- The guard and extraction applied to project_name and namespace_name:
if value and not pd.isna(value): use str(value).strip(); none means the
resolution step is skipped entirely. -/
def refNameOf : Cell → Option String
  | .missing => none
  | .nan => none
  | .str s => if s = "" then none else some (strTrim s)
  | .num n => if n = 0 then none else some (toString n)

/-- The guard applied to the categories cell:
if categories and not pd.isna(categories): use str(categories). -/
def catStrOf : Cell → Option String
  | .missing => none
  | .nan => none
  | .str s => if s = "" then none else some s
  | .num n => if n = 0 then none else some (toString n)

/-- One source record, keyed by the normalized column names the loader
reads (run_simple_etl lower-cases and underscores the header first). -/
structure Record where
  title : Cell := .missing
  text : Cell := .missing
  view_count : Cell := .missing
  project_name : Cell := .missing
  namespace_name : Cell := .missing
  categories : Cell := .missing
deriving Repr, DecidableEq

/-- The trimmed title extracted from a record, str(row.get(title, )).strip(). -/
def titleKey (r : Record) : String := strTrim (cellStr "" r.title)

/-- The Page dataclass of base_repository.py (created_at/updated_at are
never touched by the code under scrutiny and are omitted). -/
structure Page where
  id : Option Nat := none
  title : String := ""
  project_id : Option Nat := none
  views : Int := 0
  status : String := "stub"
  namespace_id : Option Nat := none
  text : String := ""
deriving Repr, DecidableEq

/-- The Category dataclass of base_repository.py. -/
structure Category where
  id : Option Nat := none
  name : String := ""
  text_content : String := ""
  status : String := "stub"
deriving Repr, DecidableEq

/-- The Page_Category dataclass: one row of the page_category link table. -/
structure PageCategory where
  page_id : Nat
  category_id : Nat
deriving Repr, DecidableEq

/-- The relational store: one list per table, a serial sequence per table,
and a counter of executed SQL statements (dbOps) so that the absence of
storage interaction is observable. -/
structure DB where
  pages : List Page := []
  projects : List (Nat × String) := []
  namespaces : List (Nat × String) := []
  categories : List Category := []
  links : List PageCategory := []
  nextPageId : Nat := 1
  nextProjectId : Nat := 1
  nextNamespaceId : Nat := 1
  nextCategoryId : Nat := 1
  dbOps : Nat := 0
deriving Repr, DecidableEq

/-- Count one executed SQL statement. -/
def DB.tick (db : DB) : DB := { db with dbOps := db.dbOps + 1 }

/-- Failure injection for the write paths: each flag answers whether the
corresponding INSERT raises a storage error when attempted. -/
structure Env where
  projectInsertFails : String → Bool := fun _ => false
  namespaceInsertFails : String → Bool := fun _ => false
  pageInsertFails : String → Bool := fun _ => false
  categoryInsertFails : String → Bool := fun _ => false
  linkInsertFails : Nat → Nat → Bool := fun _ _ => false

namespace PageRepository

/-- PageRepository.get_by_title: SELECT with LOWER(title) = LOWER(:title)
LIMIT 1 (first matching row in table order). -/
def get_by_title (db : DB) (title : String) : Option Page × DB :=
  (db.pages.find? (fun p => ciEq p.title title), db.tick)

/-- PageRepository.create: re-check the title, then INSERT ... RETURNING id,
setting the id field of the argument page on success; a duplicate title or
a storage error yields None (the page argument is left untouched on every
failure path, since its id is only assigned after a successful insert). -/
def create (env : Env) (db : DB) (page : Page) : Option Page × DB :=
  match get_by_title db page.title with
  | (some _, db₁) => (none, db₁)
  | (none, db₁) =>
    if env.pageInsertFails page.title then (none, db₁.tick)
    else
      let stored : Page := { page with id := some db₁.nextPageId }
      (some stored,
       { db₁ with
         pages := db₁.pages ++ [stored],
         nextPageId := db₁.nextPageId + 1,
         dbOps := db₁.dbOps + 1 })

end PageRepository

namespace CategoryRepository

/-- CategoryRepository.get_by_name: SELECT with LOWER(name) = LOWER(:name)
LIMIT 1. -/
def get_by_name (db : DB) (name : String) : Option Category × DB :=
  (db.categories.find? (fun c => ciEq c.name name), db.tick)

/-- CategoryRepository.create: re-check the name, then INSERT ... RETURNING
id; a duplicate name or a storage error yields None. -/
def create (env : Env) (db : DB) (cat : Category) : Option Category × DB :=
  match get_by_name db cat.name with
  | (some _, db₁) => (none, db₁)
  | (none, db₁) =>
    if env.categoryInsertFails cat.name then (none, db₁.tick)
    else
      let stored : Category := { cat with id := some db₁.nextCategoryId }
      (some stored,
       { db₁ with
         categories := db₁.categories ++ [stored],
         nextCategoryId := db₁.nextCategoryId + 1,
         dbOps := db₁.dbOps + 1 })

/-- CategoryRepository.get_or_create_by_name: look up, on a miss create
(discarding the created value) and re-fetch. -/
def get_or_create_by_name (env : Env) (db : DB) (name : String) :
    Option Category × DB :=
  match get_by_name db name with
  | (none, db₁) =>
    let (_, db₂) := create env db₁ { name := name }
    get_by_name db₂ name
  | (some cat, db₁) => (some cat, db₁)

/-- CategoryRepository.link_page_to_category: INSERT into page_category;
a storage error is caught inside the method and yields None with the
transaction rolled back. -/
def link_page_to_category (env : Env) (db : DB) (page_id category_id : Nat) :
    Option PageCategory × DB :=
  if env.linkInsertFails page_id category_id then (none, db.tick)
  else
    (some { page_id := page_id, category_id := category_id },
     { db with
       links := db.links ++ [{ page_id := page_id, category_id := category_id }],
       dbOps := db.dbOps + 1 })

end CategoryRepository

/-- The batch-run state of RepositoryBasedETL: the shared store plus the two
in-memory name-to-id caches the constructor initializes to empty dicts. -/
structure EtlState where
  db : DB
  project_cache : List (String × Nat) := []
  namespace_cache : List (String × Nat) := []
deriving Repr, DecidableEq

/-- RepositoryBasedETL._cache_projects_and_namespaces: bulk-load every
(name, id) pair of the project and namespace tables into the caches
(dict assignment is modelled by consing, so a later row shadows an earlier
one exactly as repeated dict assignment would). -/
def cache_projects_and_namespaces (s : EtlState) : EtlState :=
  { s with
    project_cache := s.db.projects.foldl (fun c pr => (pr.2, pr.1) :: c) s.project_cache,
    namespace_cache := s.db.namespaces.foldl (fun c pr => (pr.2, pr.1) :: c) s.namespace_cache,
    db := s.db.tick.tick }

/-- RepositoryBasedETL._get_or_create_cached applied to the project cache
and the project table: an empty name resolves to no reference; a cache hit
returns the cached id with no database access; a miss performs an
unconditional INSERT (Except.error models the uncaught raise of the raw
session.execute, which propagates to the per-row handler). -/
def resolve_project (env : Env) (name : String) (s : EtlState) :
    Except Unit (Option Nat) × EtlState :=
  if name = "" then (.ok none, s)
  else
    match s.project_cache.lookup name with
    | some i => (.ok (some i), s)
    | none =>
      if env.projectInsertFails name then (.error (), { s with db := s.db.tick })
      else
        let i := s.db.nextProjectId
        (.ok (some i),
         { s with
           project_cache := (name, i) :: s.project_cache,
           db := { s.db with
                   projects := s.db.projects ++ [(i, name)],
                   nextProjectId := i + 1,
                   dbOps := s.db.dbOps + 1 } })

/-- RepositoryBasedETL._get_or_create_cached applied to the namespace cache
and the namespace table. -/
def resolve_namespace (env : Env) (name : String) (s : EtlState) :
    Except Unit (Option Nat) × EtlState :=
  if name = "" then (.ok none, s)
  else
    match s.namespace_cache.lookup name with
    | some i => (.ok (some i), s)
    | none =>
      if env.namespaceInsertFails name then (.error (), { s with db := s.db.tick })
      else
        let i := s.db.nextNamespaceId
        (.ok (some i),
         { s with
           namespace_cache := (name, i) :: s.namespace_cache,
           db := { s.db with
                   namespaces := s.db.namespaces ++ [(i, name)],
                   nextNamespaceId := i + 1,
                   dbOps := s.db.dbOps + 1 } })

/-- The project branch of process_row_with_repository: resolution is
attempted only for a present, non-NaN, truthy project_name. -/
def resolve_opt_project (env : Env) (f : Cell) (s : EtlState) :
    Except Unit (Option Nat) × EtlState :=
  match refNameOf f with
  | none => (.ok none, s)
  | some nm => resolve_project env nm s

/-- The namespace branch of process_row_with_repository. -/
def resolve_opt_namespace (env : Env) (f : Cell) (s : EtlState) :
    Except Unit (Option Nat) × EtlState :=
  match refNameOf f with
  | none => (.ok none, s)
  | some nm => resolve_namespace env nm s

/-- The semicolon tokenization of _process_categories_for_page:
split on the delimiter, strip each token, drop empty tokens. -/
def parseCats (categories_str : String) : List String :=
  ((splitSemi categories_str).map strTrim).filter (fun c => c ≠ "")

/-- The body of the category loop of _process_categories_for_page: one
token is get-or-created and, when that returned a row with an id, one link
row is inserted; failures are per-category and best-effort. -/
def category_step (env : Env) (page_id : Nat) (db : DB) (cname : String) : DB :=
  match CategoryRepository.get_or_create_by_name env db cname with
  | (some c, db₁) =>
    match c.id with
    | some cid => (CategoryRepository.link_page_to_category env db₁ page_id cid).2
    | none => db₁
  | (none, db₁) => db₁

/-- RepositoryBasedETL._process_categories_for_page: for each token,
get-or-create the category and, when that returned a row with an id,
insert one link row. -/
def process_categories_for_page (env : Env) (db : DB) (page_id : Nat)
    (categories_str : String) : DB :=
  (parseCats categories_str).foldl (category_step env page_id) db

/-- The body of the try-block of process_row_with_repository; Except.error
models an exception reaching the per-row except-handler. -/
def process_row_body (env : Env) (s : EtlState) (r : Record) :
    Except Unit Bool × EtlState :=
  let title := titleKey r
  if title = "" then (.ok false, s)
  else
    match PageRepository.get_by_title s.db title with
    | (some _, db₁) => (.ok false, { s with db := db₁ })
    | (none, db₁) =>
      match resolve_opt_project env r.project_name { s with db := db₁ } with
      | (.error e, s₂) => (.error e, s₂)
      | (.ok project_id, s₂) =>
        match resolve_opt_namespace env r.namespace_name s₂ with
        | (.error e, s₃) => (.error e, s₃)
        | (.ok namespace_id, s₃) =>
          match viewsOf r.view_count with
          | none => (.error (), s₃)
          | some views =>
            let page : Page :=
              { title := title, text := strTrim (cellStr "" r.text), views := views,
                project_id := project_id, namespace_id := namespace_id,
                status := "stub" }
            match PageRepository.create env s₃.db page with
            | (none, db₄) => (.ok false, { s₃ with db := db₄ })
            | (some cp, db₄) =>
              match cp.id with
              | none => (.ok false, { s₃ with db := db₄ })
              | some pid =>
                match catStrOf r.categories with
                | none => (.ok true, { s₃ with db := db₄ })
                | some cs =>
                  (.ok true,
                   { s₃ with db := process_categories_for_page env db₄ pid cs })

/-- RepositoryBasedETL.process_row_with_repository: the per-row try/except
boundary, turning any escaped exception into the return value False. -/
def process_row_with_repository (env : Env) (s : EtlState) (r : Record) :
    Bool × EtlState :=
  match process_row_body env s r with
  | (.ok b, s') => (b, s')
  | (.error _, s') => (false, s')

/-- The run summary dictionary of run_simple_etl. -/
structure Stats where
  total_rows : Nat
  pages_created : Nat
  pages_skipped : Nat
deriving Repr, DecidableEq

/-- The row loop of run_simple_etl: process the records in order,
counting created and skipped rows; returns (created, skipped, final state). -/
def run_rows (env : Env) (s : EtlState) : List Record → Nat × Nat × EtlState
  | [] => (0, 0, s)
  | r :: rest =>
    match process_row_with_repository env s r with
    | (res, s') =>
      match run_rows env s' rest with
      | (c, k, fin) => if res then (c + 1, k, fin) else (c, k + 1, fin)

/-- run_simple_etl: build a fresh RepositoryBasedETL (whose caches start
empty; the function never calls _cache_projects_and_namespaces), process
every row, and return the summary together with the store it leaves
behind.  The records stand for the parsed rows of the CSV after header
normalization. -/
def run_simple_etl (env : Env) (rows : List Record) (db : DB) : Stats × DB :=
  let init : EtlState := { db := db }
  match run_rows env init rows with
  | (c, k, fin) =>
    ({ total_rows := rows.length, pages_created := c, pages_skipped := k }, fin.db)

/-- Whether some stored page matches a title case-insensitively. -/
def existsTitle (pages : List Page) (t : String) : Bool :=
  pages.any (fun p => ciEq p.title t)

/-- Whether the optional-reference resolution of a cell can run without a
storage exception, assuming every cached name earlier inserted cleanly. -/
def refOk (fails : String → Bool) (f : Cell) : Bool :=
  match refNameOf f with
  | none => true
  | some nm => nm == "" || !fails nm

/-- State-independent success predicate of one record: assuming the caches
are sound and the title does not already exist, the row creates a page
exactly when this holds. -/
def rowPure (env : Env) (r : Record) : Bool :=
  titleKey r != "" &&
    refOk env.projectInsertFails r.project_name &&
    refOk env.namespaceInsertFails r.namespace_name &&
    (viewsOf r.view_count).isSome &&
    !env.pageInsertFails (titleKey r)

/-- Cache soundness: every cached name got there through a successful
insert, hence its insert does not fail.  Holds for the empty caches a
fresh RepositoryBasedETL starts with, and is preserved by every row. -/
def CacheOk (env : Env) (s : EtlState) : Prop :=
  (∀ nm i, (nm, i) ∈ s.project_cache → env.projectInsertFails nm = false) ∧
  (∀ nm i, (nm, i) ∈ s.namespace_cache → env.namespaceInsertFails nm = false)

end KRA

namespace KRA

/-! Helper lemmas -/

lemma ciEq_refl (t : String) : ciEq t t = true := by simp [ciEq]

lemma existsTitle_append (pages : List Page) (p : Page) (t : String) :
    existsTitle (pages ++ [p]) t = (existsTitle pages t || ciEq p.title t) := by
  simp [existsTitle]

lemma find?_title_eq_none {pages : List Page} {t : String} :
    (pages.find? (fun p => ciEq p.title t) = none) ↔ existsTitle pages t = false := by
  simp [existsTitle, List.find?_eq_none, List.any_eq_false]

end KRA

namespace KRA

lemma link_pages (env : Env) (db : DB) (pid cid : Nat) :
    (CategoryRepository.link_page_to_category env db pid cid).2.pages = db.pages := by
  unfold CategoryRepository.link_page_to_category
  split <;> rfl

lemma get_or_create_pages (env : Env) (db : DB) (name : String) :
    (CategoryRepository.get_or_create_by_name env db name).2.pages = db.pages := by
  unfold CategoryRepository.get_or_create_by_name CategoryRepository.create CategoryRepository.get_by_name
  cases h : db.categories.find? (fun c => ciEq c.name name) <;> simp [h, DB.tick]
  · split <;> simp [DB.tick]

lemma catstep_pages (env : Env) (pid : Nat) (db : DB) (cname : String) :
    (category_step env pid db cname).pages = db.pages := by
  unfold category_step
  cases h : CategoryRepository.get_or_create_by_name env db cname with
  | mk c db₁ =>
    have hp : db₁.pages = db.pages := by
      have := get_or_create_pages env db cname
      rw [h] at this; exact this
    cases c with
    | none => simpa using hp
    | some cat =>
      cases hid : cat.id with
      | none => simp [hid, hp]
      | some cid => simp [hid, link_pages, hp]

lemma process_categories_pages (env : Env) (db : DB) (pid : Nat) (cs : String) :
    (process_categories_for_page env db pid cs).pages = db.pages := by
  unfold process_categories_for_page
  generalize parseCats cs = l
  induction l generalizing db with
  | nil => rfl
  | cons t rest ih =>
    simp only [List.foldl_cons]
    rw [ih]
    exact catstep_pages env pid db t

end KRA

namespace KRA

lemma mem_of_lookup_eq_some {l : List (String × Nat)} {a : String} {b : Nat}
    (h : l.lookup a = some b) : (a, b) ∈ l := by
  induction l with
  | nil => simp [List.lookup] at h
  | cons p rest ih =>
    obtain ⟨k, v⟩ := p
    rw [List.lookup] at h
    cases hk : a == k with
    | true =>
      rw [hk] at h
      simp at h
      simp [eq_of_beq hk, h]
    | false =>
      rw [hk] at h
      simp at h
      exact List.mem_cons_of_mem _ (ih h)

lemma resolve_project_frame (env : Env) (nm : String) (s : EtlState) :
    ((resolve_project env nm s).2.db.pages = s.db.pages) ∧
    ((resolve_project env nm s).2.db.namespaces = s.db.namespaces) ∧
    ((resolve_project env nm s).2.db.categories = s.db.categories) ∧
    ((resolve_project env nm s).2.db.links = s.db.links) ∧
    ((resolve_project env nm s).2.db.nextPageId = s.db.nextPageId) ∧
    ((resolve_project env nm s).2.db.nextNamespaceId = s.db.nextNamespaceId) ∧
    ((resolve_project env nm s).2.db.nextCategoryId = s.db.nextCategoryId) ∧
    ((resolve_project env nm s).2.namespace_cache = s.namespace_cache) := by
  unfold resolve_project
  split
  · simp
  · split
    · simp
    · split <;> simp [DB.tick]

lemma resolve_project_cacheOk (env : Env) (nm : String) (s : EtlState)
    (hC : CacheOk env s) : CacheOk env (resolve_project env nm s).2 := by
  obtain ⟨hp, hn⟩ := hC
  unfold resolve_project
  split
  · exact ⟨hp, hn⟩
  · split
    · exact ⟨hp, hn⟩
    · split
      · exact ⟨hp, hn⟩
      · rename_i hne hlook hfail
        refine ⟨?_, hn⟩
        intro nm' i' hmem
        rcases List.mem_cons.mp hmem with h | h
        · cases h
          simpa using hfail
        · exact hp nm' i' h

lemma resolve_project_err (env : Env) (nm : String) (s : EtlState)
    (hC : CacheOk env s) (hne : nm ≠ "") (hf : env.projectInsertFails nm = true) :
    (resolve_project env nm s).1 = Except.error () := by
  unfold resolve_project
  rw [if_neg hne]
  cases hl : s.project_cache.lookup nm with
  | some i =>
    have := hC.1 nm i (mem_of_lookup_eq_some hl)
    rw [this] at hf
    exact absurd hf (by simp)
  | none => simp [hf]

lemma resolve_project_ok (env : Env) (nm : String) (s : EtlState)
    (hne : nm ≠ "") (hf : env.projectInsertFails nm = false) :
    ∃ v, (resolve_project env nm s).1 = Except.ok (some v) := by
  unfold resolve_project
  rw [if_neg hne]
  cases hl : s.project_cache.lookup nm with
  | some i => exact ⟨i, rfl⟩
  | none => simp [hf]

end KRA

namespace KRA

lemma resolve_namespace_frame (env : Env) (nm : String) (s : EtlState) :
    ((resolve_namespace env nm s).2.db.pages = s.db.pages) ∧
    ((resolve_namespace env nm s).2.db.projects = s.db.projects) ∧
    ((resolve_namespace env nm s).2.db.categories = s.db.categories) ∧
    ((resolve_namespace env nm s).2.db.links = s.db.links) ∧
    ((resolve_namespace env nm s).2.db.nextPageId = s.db.nextPageId) ∧
    ((resolve_namespace env nm s).2.db.nextProjectId = s.db.nextProjectId) ∧
    ((resolve_namespace env nm s).2.db.nextCategoryId = s.db.nextCategoryId) ∧
    ((resolve_namespace env nm s).2.project_cache = s.project_cache) := by
  unfold resolve_namespace
  split
  · simp
  · split
    · simp
    · split <;> simp [DB.tick]

lemma resolve_namespace_cacheOk (env : Env) (nm : String) (s : EtlState)
    (hC : CacheOk env s) : CacheOk env (resolve_namespace env nm s).2 := by
  obtain ⟨hp, hn⟩ := hC
  unfold resolve_namespace
  split
  · exact ⟨hp, hn⟩
  · split
    · exact ⟨hp, hn⟩
    · split
      · exact ⟨hp, hn⟩
      · rename_i hne hlook hfail
        refine ⟨hp, ?_⟩
        intro nm' i' hmem
        rcases List.mem_cons.mp hmem with h | h
        · cases h
          simpa using hfail
        · exact hn nm' i' h

lemma resolve_namespace_err (env : Env) (nm : String) (s : EtlState)
    (hC : CacheOk env s) (hne : nm ≠ "") (hf : env.namespaceInsertFails nm = true) :
    (resolve_namespace env nm s).1 = Except.error () := by
  unfold resolve_namespace
  rw [if_neg hne]
  cases hl : s.namespace_cache.lookup nm with
  | some i =>
    have := hC.2 nm i (mem_of_lookup_eq_some hl)
    rw [this] at hf
    exact absurd hf (by simp)
  | none => simp [hf]

lemma resolve_namespace_ok (env : Env) (nm : String) (s : EtlState)
    (hne : nm ≠ "") (hf : env.namespaceInsertFails nm = false) :
    ∃ v, (resolve_namespace env nm s).1 = Except.ok (some v) := by
  unfold resolve_namespace
  rw [if_neg hne]
  cases hl : s.namespace_cache.lookup nm with
  | some i => exact ⟨i, rfl⟩
  | none => simp [hf]

lemma resolve_opt_project_spec (env : Env) (f : Cell) (s : EtlState) (hC : CacheOk env s) :
    (refOk env.projectInsertFails f = true → ∃ v, (resolve_opt_project env f s).1 = Except.ok v) ∧
    (refOk env.projectInsertFails f = false → (resolve_opt_project env f s).1 = Except.error ()) := by
  unfold resolve_opt_project refOk
  cases hr : refNameOf f with
  | none =>
    refine ⟨fun _ => ⟨none, rfl⟩, fun h => ?_⟩
    cases h
  | some nm =>
    by_cases hne : nm = ""
    · subst hne
      refine ⟨fun _ => ⟨none, by simp [resolve_project]⟩, fun h => ?_⟩
      simp at h
    · constructor
      · intro h
        have hf : env.projectInsertFails nm = false := by
          simpa [hne] using h
        obtain ⟨v, hv⟩ := resolve_project_ok env nm s hne hf
        exact ⟨some v, hv⟩
      · intro h
        have hf : env.projectInsertFails nm = true := by
          simpa [hne] using h
        exact resolve_project_err env nm s hC hne hf

lemma resolve_opt_namespace_spec (env : Env) (f : Cell) (s : EtlState) (hC : CacheOk env s) :
    (refOk env.namespaceInsertFails f = true → ∃ v, (resolve_opt_namespace env f s).1 = Except.ok v) ∧
    (refOk env.namespaceInsertFails f = false → (resolve_opt_namespace env f s).1 = Except.error ()) := by
  unfold resolve_opt_namespace refOk
  cases hr : refNameOf f with
  | none =>
    refine ⟨fun _ => ⟨none, rfl⟩, fun h => ?_⟩
    cases h
  | some nm =>
    by_cases hne : nm = ""
    · subst hne
      refine ⟨fun _ => ⟨none, by simp [resolve_namespace]⟩, fun h => ?_⟩
      simp at h
    · constructor
      · intro h
        have hf : env.namespaceInsertFails nm = false := by
          simpa [hne] using h
        obtain ⟨v, hv⟩ := resolve_namespace_ok env nm s hne hf
        exact ⟨some v, hv⟩
      · intro h
        have hf : env.namespaceInsertFails nm = true := by
          simpa [hne] using h
        exact resolve_namespace_err env nm s hC hne hf

lemma resolve_opt_project_frame (env : Env) (f : Cell) (s : EtlState) :
    ((resolve_opt_project env f s).2.db.pages = s.db.pages) ∧
    ((resolve_opt_project env f s).2.db.nextPageId = s.db.nextPageId) ∧
    ((resolve_opt_project env f s).2.namespace_cache = s.namespace_cache) := by
  unfold resolve_opt_project
  cases hr : refNameOf f with
  | none => exact ⟨rfl, rfl, rfl⟩
  | some nm =>
    have h := resolve_project_frame env nm s
    exact ⟨h.1, h.2.2.2.2.1, h.2.2.2.2.2.2.2⟩

lemma resolve_opt_namespace_frame (env : Env) (f : Cell) (s : EtlState) :
    ((resolve_opt_namespace env f s).2.db.pages = s.db.pages) ∧
    ((resolve_opt_namespace env f s).2.db.nextPageId = s.db.nextPageId) ∧
    ((resolve_opt_namespace env f s).2.project_cache = s.project_cache) := by
  unfold resolve_opt_namespace
  cases hr : refNameOf f with
  | none => exact ⟨rfl, rfl, rfl⟩
  | some nm =>
    have h := resolve_namespace_frame env nm s
    exact ⟨h.1, h.2.2.2.2.1, h.2.2.2.2.2.2.2⟩

lemma resolve_opt_project_cacheOk (env : Env) (f : Cell) (s : EtlState)
    (hC : CacheOk env s) : CacheOk env (resolve_opt_project env f s).2 := by
  unfold resolve_opt_project
  cases hr : refNameOf f with
  | none => exact hC
  | some nm => exact resolve_project_cacheOk env nm s hC

lemma resolve_opt_namespace_cacheOk (env : Env) (f : Cell) (s : EtlState)
    (hC : CacheOk env s) : CacheOk env (resolve_opt_namespace env f s).2 := by
  unfold resolve_opt_namespace
  cases hr : refNameOf f with
  | none => exact hC
  | some nm => exact resolve_namespace_cacheOk env nm s hC

lemma find?_title_eq_some_of_exists {pages : List Page} {t : String}
    (h : existsTitle pages t = true) :
    ∃ p, pages.find? (fun p => ciEq p.title t) = some p := by
  cases hf : pages.find? (fun p => ciEq p.title t) with
  | some p => exact ⟨p, rfl⟩
  | none =>
    rw [find?_title_eq_none] at hf
    rw [hf] at h
    cases h

lemma create_spec_success (env : Env) (db : DB) (page : Page)
    (hex : existsTitle db.pages page.title = false)
    (hf : env.pageInsertFails page.title = false) :
    PageRepository.create env db page =
      (some { page with id := some db.nextPageId },
       { db with pages := db.pages ++ [{ page with id := some db.nextPageId }],
                 nextPageId := db.nextPageId + 1,
                 dbOps := db.dbOps + 2 }) := by
  unfold PageRepository.create PageRepository.get_by_title
  have hfind : db.pages.find? (fun p => ciEq p.title page.title) = none :=
    find?_title_eq_none.mpr hex
  rw [hfind]
  simp [DB.tick, hf]

lemma create_spec_dup (env : Env) (db : DB) (page : Page)
    (hex : existsTitle db.pages page.title = true) :
    PageRepository.create env db page = (none, db.tick) := by
  unfold PageRepository.create PageRepository.get_by_title
  obtain ⟨p, hp⟩ := find?_title_eq_some_of_exists hex
  rw [hp]

lemma create_spec_fail (env : Env) (db : DB) (page : Page)
    (hex : existsTitle db.pages page.title = false)
    (hf : env.pageInsertFails page.title = true) :
    PageRepository.create env db page = (none, db.tick.tick) := by
  unfold PageRepository.create PageRepository.get_by_title
  have hfind : db.pages.find? (fun p => ciEq p.title page.title) = none :=
    find?_title_eq_none.mpr hex
  rw [hfind]
  simp [DB.tick, hf]

end KRA

namespace KRA

/-- Full characterization of one row under sound caches: the caches stay
sound, the outcome is determined by the existence check and the pure
success predicate, and the page table either gains exactly the new page or
is untouched. -/
lemma process_row_spec (env : Env) (s : EtlState) (r : Record) (hC : CacheOk env s) :
    CacheOk env (process_row_with_repository env s r).2 ∧
    (process_row_with_repository env s r).1 =
      (!existsTitle s.db.pages (titleKey r) && rowPure env r) ∧
    (if (process_row_with_repository env s r).1 = true then
       ∃ p v, viewsOf r.view_count = some v ∧
         (process_row_with_repository env s r).2.db.pages = s.db.pages ++ [p] ∧
         p.title = titleKey r ∧ p.views = v ∧ p.status = "stub"
     else (process_row_with_repository env s r).2.db.pages = s.db.pages) := by
  unfold process_row_with_repository process_row_body
  by_cases ht : titleKey r = ""
  · rw [if_pos ht]
    have hrp : rowPure env r = false := by simp [rowPure, ht]
    exact ⟨hC, by simp [hrp], by simp⟩
  · rw [if_neg ht]
    simp only [PageRepository.get_by_title]
    cases hfind : s.db.pages.find? (fun p => ciEq p.title (titleKey r)) with
    | some p0 =>
      have hex : existsTitle s.db.pages (titleKey r) = true := by
        cases hx : existsTitle s.db.pages (titleKey r)
        · rw [← find?_title_eq_none] at hx
          rw [hx] at hfind
          cases hfind
        · rfl
      exact ⟨hC, by simp [hex], by simp [DB.tick]⟩
    | none =>
      have hex : existsTitle s.db.pages (titleKey r) = false :=
        find?_title_eq_none.mp hfind
      have hC1 : CacheOk env { s with db := DB.tick s.db } := hC
      rcases hpr : resolve_opt_project env r.project_name { s with db := DB.tick s.db }
        with ⟨res₂, s₂⟩
      have hproj := resolve_opt_project_spec env r.project_name
        { s with db := DB.tick s.db } hC1
      rw [hpr] at hproj
      have hfr₂ := resolve_opt_project_frame env r.project_name { s with db := DB.tick s.db }
      rw [hpr] at hfr₂
      have hpag2 : s₂.db.pages = s.db.pages := by
        simpa [DB.tick] using hfr₂.1
      have hC2 : CacheOk env s₂ := by
        have := resolve_opt_project_cacheOk env r.project_name
          { s with db := DB.tick s.db } hC1
        rwa [hpr] at this
      cases hro : refOk env.projectInsertFails r.project_name with
      | false =>
        have herr := hproj.2 hro
        simp only at herr
        subst herr
        have hrp : rowPure env r = false := by
          simp [rowPure, hro]
        simp only [hpr]
        exact ⟨hC2, by simp [hrp], by simp [hpag2]⟩
      | true =>
        obtain ⟨pid, hok⟩ := hproj.1 hro
        simp only at hok
        subst hok
        rcases hnr : resolve_opt_namespace env r.namespace_name s₂ with ⟨res₃, s₃⟩
        have hns := resolve_opt_namespace_spec env r.namespace_name s₂ hC2
        rw [hnr] at hns
        have hfr₃ := resolve_opt_namespace_frame env r.namespace_name s₂
        rw [hnr] at hfr₃
        have hC3 : CacheOk env s₃ := by
          have := resolve_opt_namespace_cacheOk env r.namespace_name s₂ hC2
          rwa [hnr] at this
        have hpag3 : s₃.db.pages = s.db.pages := by
          rw [hfr₃.1, hpag2]
        cases hrn : refOk env.namespaceInsertFails r.namespace_name with
        | false =>
          have herr := hns.2 hrn
          simp only at herr
          subst herr
          have hrp : rowPure env r = false := by
            simp [rowPure, hrn]
          simp only [hpr, hnr]
          exact ⟨hC3, by simp [hrp], by simp [hpag3]⟩
        | true =>
          obtain ⟨nid, hok2⟩ := hns.1 hrn
          simp only at hok2
          subst hok2
          cases hview : viewsOf r.view_count with
          | none =>
            have hrp : rowPure env r = false := by
              simp [rowPure, hview]
            simp only [hpr, hnr, hview]
            exact ⟨hC3, by simp [hrp], by simp [hpag3]⟩
          | some v =>
            have hex3 : existsTitle s₃.db.pages (titleKey r) = false := by
              rw [hpag3]; exact hex
            cases hpf : env.pageInsertFails (titleKey r) with
            | true =>
              have hcr := create_spec_fail env s₃.db
                { title := titleKey r, text := strTrim (cellStr "" r.text), views := v,
                  project_id := pid, namespace_id := nid, status := "stub" } hex3 hpf
              have hrp : rowPure env r = false := by
                simp [rowPure, hpf]
              simp only [hpr, hnr, hview, hcr]
              exact ⟨hC3, by simp [hrp], by simp [DB.tick, hpag3]⟩
            | false =>
              have hcr := create_spec_success env s₃.db
                { title := titleKey r, text := strTrim (cellStr "" r.text), views := v,
                  project_id := pid, namespace_id := nid, status := "stub" } hex3 hpf
              have hrp : rowPure env r = true := by
                simp [rowPure, ht, hro, hrn, hview, hpf]
              cases hcs : catStrOf r.categories with
              | none =>
                simp only [hpr, hnr, hview, hcr, hcs]
                refine ⟨hC3, by simp [hex, hrp], ?_⟩
                rw [if_pos trivial]
                refine ⟨{ id := some s₃.db.nextPageId, title := titleKey r, project_id := pid,
                          views := v, status := "stub", namespace_id := nid,
                          text := strTrim (cellStr "" r.text) }, v, rfl, ?_, rfl, rfl, rfl⟩
                simp [hpag3]
              | some cs =>
                simp only [hpr, hnr, hview, hcr, hcs]
                refine ⟨hC3, by simp [hex, hrp], ?_⟩
                rw [if_pos trivial]
                refine ⟨{ id := some s₃.db.nextPageId, title := titleKey r, project_id := pid,
                          views := v, status := "stub", namespace_id := nid,
                          text := strTrim (cellStr "" r.text) }, v, rfl, ?_, rfl, rfl, rfl⟩
                simp only [process_categories_pages]
                simp [hpag3]

end KRA

namespace KRA

lemma cacheOk_fresh (env : Env) (db : DB) : CacheOk env { db := db } :=
  ⟨fun _ _ h => absurd h (List.not_mem_nil _), fun _ _ h => absurd h (List.not_mem_nil _)⟩

lemma run_rows_count (env : Env) (s : EtlState) (rows : List Record) :
    (run_rows env s rows).1 + (run_rows env s rows).2.1 = rows.length := by
  induction rows generalizing s with
  | nil => rfl
  | cons r rest ih =>
    unfold run_rows
    rcases hp : process_row_with_repository env s r with ⟨res, s'⟩
    dsimp only
    rcases hr : run_rows env s' rest with ⟨c, k, fin⟩
    have hih := ih s'
    rw [hr] at hih
    simp only at hih
    cases res <;> simp <;> omega

lemma run_rows_cacheOk (env : Env) (rows : List Record) :
    ∀ s : EtlState, CacheOk env s → CacheOk env (run_rows env s rows).2.2 := by
  induction rows with
  | nil => intro s hC; exact hC
  | cons r rest ih =>
    intro s hC
    unfold run_rows
    rcases hp : process_row_with_repository env s r with ⟨res, s'⟩
    dsimp only
    have hC' : CacheOk env s' := by
      have := (process_row_spec env s r hC).1
      rwa [hp] at this
    rcases hr : run_rows env s' rest with ⟨c, k, fin⟩
    have := ih s' hC'
    rw [hr] at this
    cases res <;> simpa using this

lemma run_rows_pages_mono (env : Env) (rows : List Record) (t : String) :
    ∀ s : EtlState, CacheOk env s → existsTitle s.db.pages t = true →
      existsTitle (run_rows env s rows).2.2.db.pages t = true := by
  induction rows with
  | nil => intro s _ hex; exact hex
  | cons r rest ih =>
    intro s hC hex
    unfold run_rows
    rcases hp : process_row_with_repository env s r with ⟨res, s'⟩
    dsimp only
    have hspec := process_row_spec env s r hC
    rw [hp] at hspec
    obtain ⟨hC', h2, h3⟩ := hspec
    simp only at h2 h3
    have hex' : existsTitle s'.db.pages t = true := by
      cases hres : res
      · rw [hres] at h3
        rw [if_neg (by simp)] at h3
        rw [h3]; exact hex
      · rw [hres] at h3
        rw [if_pos rfl] at h3
        obtain ⟨p, v, -, hpp, -, -, -⟩ := h3
        rw [hpp, existsTitle_append, hex]
        simp
    rcases hr : run_rows env s' rest with ⟨c, k, fin⟩
    have := ih s' hC' hex'
    rw [hr] at this
    cases res <;> simpa using this

lemma run_rows_covers (env : Env) (rows : List Record) :
    ∀ s : EtlState, CacheOk env s → ∀ r ∈ rows, rowPure env r = true →
      existsTitle (run_rows env s rows).2.2.db.pages (titleKey r) = true := by
  induction rows with
  | nil => intro s _ r hr; cases hr
  | cons r0 rest ih =>
    intro s hC r hr hp
    unfold run_rows
    rcases hpr : process_row_with_repository env s r0 with ⟨res, s'⟩
    dsimp only
    have hspec := process_row_spec env s r0 hC
    rw [hpr] at hspec
    obtain ⟨hC', h2, h3⟩ := hspec
    simp only at h2 h3
    rcases List.mem_cons.mp hr with heq | hmem
    · subst heq
      have hex' : existsTitle s'.db.pages (titleKey r) = true := by
        cases hres : res
        · rw [hres] at h2 h3
          have hex : existsTitle s.db.pages (titleKey r) = true := by
            cases hx : existsTitle s.db.pages (titleKey r)
            · rw [hx, hp] at h2
              simp at h2
            · rfl
          rw [if_neg (by simp)] at h3
          rw [h3]; exact hex
        · rw [hres] at h3
          rw [if_pos rfl] at h3
          obtain ⟨p, v, -, hpp, hpt, -, -⟩ := h3
          rw [hpp, existsTitle_append]
          simp [hpt, ciEq_refl]
      rcases hrun : run_rows env s' rest with ⟨c, k, fin⟩
      have := run_rows_pages_mono env rest (titleKey r) s' hC' hex'
      rw [hrun] at this
      cases res <;> simpa using this
    · rcases hrun : run_rows env s' rest with ⟨c, k, fin⟩
      have := ih s' hC' r hmem hp
      rw [hrun] at this
      cases res <;> simpa using this

lemma run_rows_second (env : Env) (rows : List Record) :
    ∀ s : EtlState, CacheOk env s →
      (∀ r ∈ rows, rowPure env r = true → existsTitle s.db.pages (titleKey r) = true) →
      (run_rows env s rows).1 = 0 ∧ (run_rows env s rows).2.2.db.pages = s.db.pages := by
  induction rows with
  | nil => intro s _ _; exact ⟨rfl, rfl⟩
  | cons r rest ih =>
    intro s hC hcov
    unfold run_rows
    rcases hpr : process_row_with_repository env s r with ⟨res, s'⟩
    dsimp only
    have hspec := process_row_spec env s r hC
    rw [hpr] at hspec
    obtain ⟨hC', h2, h3⟩ := hspec
    simp only at h2 h3
    have hres : res = false := by
      cases hrp : rowPure env r
      · rw [h2, hrp]; simp
      · have hex := hcov r (List.mem_cons_self r rest) hrp
        rw [h2, hex]; simp
    subst hres
    rw [if_neg (by simp)] at h3
    rcases hrun : run_rows env s' rest with ⟨c, k, fin⟩
    have := ih s' hC' (fun r' hr' hp' => by
      rw [h3]; exact hcov r' (List.mem_cons_of_mem _ hr') hp')
    rw [hrun] at this
    simp only at this ⊢
    simp only [if_neg (by simp : ¬(false = true))]
    exact ⟨this.1, by rw [this.2, h3]⟩

end KRA

namespace KRA

lemma run_simple_etl_eq (env : Env) (rows : List Record) (db : DB) :
    run_simple_etl env rows db =
      ({ total_rows := rows.length,
         pages_created := (run_rows env { db := db } rows).1,
         pages_skipped := (run_rows env { db := db } rows).2.1 },
       (run_rows env { db := db } rows).2.2.db) := by
  unfold run_simple_etl
  dsimp only

/-! Claim theorems -/

/-- C1: processing the same source twice is idempotent on the primary
entity: the second run (fresh caches, store left by the first run) reports
pages_created = 0 — every previously succeeded title is found by the
case-insensitive existence check and the row returns false — and the page
table after the second run equals the page table after the first run. -/
theorem c1_second_run_creates_nothing (env : Env) (rows : List Record) (db : DB) :
    (run_simple_etl env rows (run_simple_etl env rows db).2).1.pages_created = 0 ∧
    (run_simple_etl env rows (run_simple_etl env rows db).2).2.pages =
      (run_simple_etl env rows db).2.pages := by
  simp only [run_simple_etl_eq]
  have hcov : ∀ r ∈ rows, rowPure env r = true →
      existsTitle (run_rows env { db := db } rows).2.2.db.pages (titleKey r) = true :=
    fun r hr hp => run_rows_covers env rows { db := db } (cacheOk_fresh env db) r hr hp
  have hsec := run_rows_second env rows
    { db := (run_rows env { db := db } rows).2.2.db } (cacheOk_fresh env _) hcov
  exact ⟨hsec.1, hsec.2⟩

/-- C9: the run summary always satisfies
total_rows = pages_created + pages_skipped, and total_rows is the number of
records read; each record contributes exactly one of the two increments. -/
theorem c9_stats_partition (env : Env) (rows : List Record) (db : DB) :
    (run_simple_etl env rows db).1.total_rows =
      (run_simple_etl env rows db).1.pages_created +
        (run_simple_etl env rows db).1.pages_skipped ∧
    (run_simple_etl env rows db).1.total_rows = rows.length := by
  simp only [run_simple_etl_eq]
  have := run_rows_count env { db := db } rows
  exact ⟨by omega, trivial⟩

/-- C8: a record whose title is empty or whitespace-only after trimming is
rejected before any storage interaction: the row returns false and the
whole ETL state — page table, auxiliary tables, caches, and the executed
statement counter — is exactly the state before the row; in a batch the
row adds one to pages_skipped and none to pages_created. -/
theorem c8_blank_title_skips_without_storage (env : Env) (s : EtlState) (r : Record)
    (h : titleKey r = "") :
    process_row_with_repository env s r = (false, s) ∧
    (∀ rest : List Record,
      run_rows env s (r :: rest) =
        ((run_rows env s rest).1, (run_rows env s rest).2.1 + 1,
         (run_rows env s rest).2.2)) := by
  have hb : process_row_with_repository env s r = (false, s) := by
    unfold process_row_with_repository process_row_body
    rw [if_pos h]
  refine ⟨hb, fun rest => ?_⟩
  conv_lhs => rw [run_rows]
  rw [hb]
  dsimp only
  rcases hr : run_rows env s rest with ⟨c, k, fin⟩
  simp

end KRA

namespace KRA

/-- C7: an exception escaping the body of a row (storage error of the raw
cache insert, or the ValueError of the view-count conversion) is caught at
the per-record boundary: the row returns false with the state the body
left, the batch counts it as skipped, and the remaining records are still
processed from that state. -/
theorem c7_per_record_exception_boundary (env : Env) (s : EtlState) (r : Record)
    (herr : (process_row_body env s r).1 = Except.error ()) :
    process_row_with_repository env s r = (false, (process_row_body env s r).2) ∧
    (∀ rest : List Record,
      run_rows env s (r :: rest) =
        ((run_rows env (process_row_body env s r).2 rest).1,
         (run_rows env (process_row_body env s r).2 rest).2.1 + 1,
         (run_rows env (process_row_body env s r).2 rest).2.2)) := by
  have hb : process_row_with_repository env s r = (false, (process_row_body env s r).2) := by
    unfold process_row_with_repository
    rcases hh : process_row_body env s r with ⟨res, s'⟩
    rw [hh] at herr
    simp only at herr
    subst herr
    rfl
  refine ⟨hb, fun rest => ?_⟩
  conv_lhs => rw [run_rows]
  rw [hb]
  dsimp only
  rcases hr : run_rows env (process_row_body env s r).2 rest with ⟨c, k, fin⟩
  simp

/-- C7 witness: a record whose project insert raises is caught, returns
false and the one-record batch reports it as skipped. -/
theorem c7_witness :
    process_row_with_repository { projectInsertFails := fun nm => nm == "P" }
        { db := {} } { title := Cell.str "T", project_name := Cell.str "P" } =
      (false, (process_row_body { projectInsertFails := fun nm => nm == "P" }
        { db := {} } { title := Cell.str "T", project_name := Cell.str "P" }).2) :=
  (c7_per_record_exception_boundary { projectInsertFails := fun nm => nm == "P" }
    { db := {} } { title := Cell.str "T", project_name := Cell.str "P" } (by rfl)).1

/-- C10: PageRepository.create returns, on success, exactly the page it was
given with its id field set to the assigned identifier and every other
field unchanged (the record update spells this out), appending that very
page to the store; on the duplicate-title path and on the storage-error
path it returns none and no page (in particular none with an assigned id)
is stored. -/
theorem c10_create_returns_input_with_id (env : Env) (db : DB) (page : Page) :
    (existsTitle db.pages page.title = false →
      env.pageInsertFails page.title = false →
      (PageRepository.create env db page).1 = some { page with id := some db.nextPageId } ∧
      (PageRepository.create env db page).2.pages =
        db.pages ++ [{ page with id := some db.nextPageId }]) ∧
    (existsTitle db.pages page.title = true →
      (PageRepository.create env db page).1 = none ∧
      (PageRepository.create env db page).2.pages = db.pages) ∧
    (env.pageInsertFails page.title = true →
      (PageRepository.create env db page).1 = none ∧
      (PageRepository.create env db page).2.pages = db.pages) := by
  refine ⟨fun hex hf => ?_, fun hex => ?_, fun hf => ?_⟩
  · rw [create_spec_success env db page hex hf]
    exact ⟨rfl, rfl⟩
  · rw [create_spec_dup env db page hex]
    exact ⟨rfl, rfl⟩
  · cases hex : existsTitle db.pages page.title
    · rw [create_spec_fail env db page hex hf]
      exact ⟨rfl, rfl⟩
    · rw [create_spec_dup env db page hex]
      exact ⟨rfl, rfl⟩

/-- C10 witness: creating a fresh title stores and returns the argument
with id 1 assigned and all other fields intact. -/
theorem c10_witness :
    (PageRepository.create {} {} { title := "Go", views := 7 }).1 =
      some { title := "Go", views := 7, id := some 1 } :=
  ((c10_create_returns_input_with_id {} {} { title := "Go", views := 7 }).1
    (by decide) (by decide)).1

/-- One cache miss of _get_or_create_cached on the project side: the fresh
identifier is returned, cached, and one row is inserted. -/
lemma resolve_project_miss (env : Env) (nm : String) (s : EtlState)
    (hne : nm ≠ "") (hl : s.project_cache.lookup nm = none)
    (hf : env.projectInsertFails nm = false) :
    (resolve_project env nm s).1 = Except.ok (some s.db.nextProjectId) ∧
    (resolve_project env nm s).2.project_cache = (nm, s.db.nextProjectId) :: s.project_cache ∧
    (resolve_project env nm s).2.db.projects = s.db.projects ++ [(s.db.nextProjectId, nm)] ∧
    (resolve_project env nm s).2.db.nextProjectId = s.db.nextProjectId + 1 := by
  unfold resolve_project
  rw [if_neg hne, hl]
  simp [hf]

/-- C4: auxiliary-reference resolution is exact-case while primary-entity
title matching is case-insensitive: two uncached project names that differ
only in letter case resolve through _get_or_create_cached to two distinct
identifiers, inserting two rows, whereas a page-title query cannot
distinguish the two spellings at all. -/
theorem c4_cache_case_sensitive_title_insensitive (env : Env) (s : EtlState) (a b : String)
    (hab : a ≠ b) (hci : strLower a = strLower b)
    (ha : a ≠ "") (hb : b ≠ "")
    (hca : s.project_cache.lookup a = none) (hcb : s.project_cache.lookup b = none)
    (hfa : env.projectInsertFails a = false) (hfb : env.projectInsertFails b = false) :
    (resolve_project env a s).1 = Except.ok (some s.db.nextProjectId) ∧
    (resolve_project env b (resolve_project env a s).2).1 =
      Except.ok (some (s.db.nextProjectId + 1)) ∧
    s.db.nextProjectId ≠ s.db.nextProjectId + 1 ∧
    (resolve_project env b (resolve_project env a s).2).2.db.projects =
      s.db.projects ++ [(s.db.nextProjectId, a), (s.db.nextProjectId + 1, b)] ∧
    (∀ db : DB, (PageRepository.get_by_title db a).1 = (PageRepository.get_by_title db b).1) := by
  obtain ⟨e1a, e1b, e1c, e1d⟩ := resolve_project_miss env a s ha hca hfa
  have hba : (b == a) = false := by
    simp [Ne.symm hab]
  have hlook2 : (resolve_project env a s).2.project_cache.lookup b = none := by
    rw [e1b]
    simp [List.lookup, hba, hcb]
  obtain ⟨e2a, e2b, e2c, e2d⟩ := resolve_project_miss env b _ hb hlook2 hfb
  refine ⟨e1a, ?_, by omega, ?_, fun db => ?_⟩
  · rw [e2a, e1d]
  · rw [e2c, e1c, e1d]
    simp
  · unfold PageRepository.get_by_title
    have hfun : (fun p : Page => ciEq p.title a) = (fun p : Page => ciEq p.title b) := by
      funext p
      simp [ciEq, hci]
    rw [hfun]

/-- C4 witness: Wikipedia and wikipedia get the distinct project ids 1 and
2 through the cache. -/
theorem c4_witness :
    (resolve_project {} "Wikipedia" { db := {} }).1 = Except.ok (some 1) ∧
    (resolve_project {} "wikipedia" (resolve_project {} "Wikipedia" { db := {} }).2).1 =
      Except.ok (some 2) :=
  have h := c4_cache_case_sensitive_title_insensitive {} { db := {} }
    "Wikipedia" "wikipedia" (by decide) (by decide) (by decide) (by decide)
    (by decide) (by decide) (by decide) (by decide)
  ⟨h.1, h.2.1⟩

end KRA

namespace KRA

/-- C2 counterexample: the claim says a record with a missing or
non-numeric view_count still results in a created page with views = 0; in
fact int() raises on a NaN cell and on a non-numeric string, the per-row
handler catches the exception, and the record is skipped with no page
created. -/
theorem c2_counterexample :
    ((process_row_with_repository {} { db := {} }
        { title := Cell.str "T", view_count := Cell.str "abc" }).1 = false ∧
     (process_row_with_repository {} { db := {} }
        { title := Cell.str "T", view_count := Cell.str "abc" }).2.db.pages = []) ∧
    ((process_row_with_repository {} { db := {} }
        { title := Cell.str "T", view_count := Cell.nan }).1 = false ∧
     (process_row_with_repository {} { db := {} }
        { title := Cell.str "T", view_count := Cell.nan }).2.db.pages = []) := by
  exact ⟨⟨rfl, rfl⟩, ⟨rfl, rfl⟩⟩

/-- C2 amended: only an absent view_count column (the row.get default) is
treated as 0 — the record is then still created with views = 0; a NaN or
non-numeric view_count makes int() raise, the record is skipped and no
page is persisted; a numeric view_count is persisted as-is with no
non-negativity check. -/
theorem c2_view_count_normalization (env : Env) (s : EtlState) (r : Record)
    (hC : CacheOk env s) :
    (r.view_count = Cell.missing → (process_row_with_repository env s r).1 = true →
      ∃ p, (process_row_with_repository env s r).2.db.pages = s.db.pages ++ [p] ∧
        p.views = 0 ∧ p.title = titleKey r) ∧
    (viewsOf r.view_count = none →
      (process_row_with_repository env s r).1 = false ∧
      (process_row_with_repository env s r).2.db.pages = s.db.pages) ∧
    (∀ n : Int, r.view_count = Cell.num n → (process_row_with_repository env s r).1 = true →
      ∃ p, (process_row_with_repository env s r).2.db.pages = s.db.pages ++ [p] ∧
        p.views = n ∧ p.title = titleKey r) := by
  obtain ⟨-, h2, h3⟩ := process_row_spec env s r hC
  refine ⟨fun hm hb => ?_, fun hv => ?_, fun n hm hb => ?_⟩
  · rw [hb, if_pos rfl] at h3
    obtain ⟨p, v, hv, hpp, hpt, hpv, -⟩ := h3
    rw [hm] at hv
    simp only [viewsOf] at hv
    cases hv
    exact ⟨p, hpp, by rw [hpv], hpt⟩
  · have hrp : rowPure env r = false := by
      simp [rowPure, hv]
    have hres : (process_row_with_repository env s r).1 = false := by
      rw [h2, hrp]
      simp
    rw [hres, if_neg (by simp)] at h3
    exact ⟨hres, h3⟩
  · rw [hb, if_pos rfl] at h3
    obtain ⟨p, v, hv, hpp, hpt, hpv, -⟩ := h3
    rw [hm] at hv
    simp only [viewsOf] at hv
    cases hv
    exact ⟨p, hpp, by rw [hpv], hpt⟩

/-- C2 witness: a record with the numeric view_count -3 is created and the
negative value is persisted unchanged. -/
theorem c2_witness :
    ∃ p, (process_row_with_repository {} { db := {} }
        { title := Cell.str "T", view_count := Cell.num (-3) }).2.db.pages =
      ({ db := {} } : EtlState).db.pages ++ [p] ∧
      p.views = -3 ∧
      p.title = titleKey { title := Cell.str "T", view_count := Cell.num (-3) } :=
  (c2_view_count_normalization {} { db := {} }
      { title := Cell.str "T", view_count := Cell.num (-3) }
      (cacheOk_fresh {} {})).2.2 (-3) rfl (by rfl)

/-- C3: run_simple_etl never calls _cache_projects_and_namespaces, so the
caches start empty even when the store already holds the name: re-running
against a store that contains project (1, Eng) inserts a duplicate row
(2, Eng); had the driver pre-seeded the caches first, the same record
would have resolved to the existing row and inserted nothing. -/
theorem c3_driver_skips_preseed_so_duplicates_appear :
    (run_simple_etl {} [{ title := Cell.str "New", project_name := Cell.str "Eng" }]
        { projects := [(1, "Eng")], nextProjectId := 2 }).2.projects =
      [(1, "Eng"), (2, "Eng")] ∧
    (run_rows {} (cache_projects_and_namespaces
        { db := { projects := [(1, "Eng")], nextProjectId := 2 } })
      [{ title := Cell.str "New", project_name := Cell.str "Eng" }]).2.2.db.projects =
      [(1, "Eng")] := by
  exact ⟨rfl, rfl⟩

end KRA

namespace KRA

/-- One category token under a failure-free environment: exactly one link
row is appended and every stored category keeps an assigned id. -/
lemma category_step_spec (env : Env) (pid : Nat) (db : DB) (t : String)
    (hcat : env.categoryInsertFails t = false)
    (hlink : ∀ p c, env.linkInsertFails p c = false)
    (hids : ∀ c ∈ db.categories, c.id.isSome = true) :
    (category_step env pid db t).links.length = db.links.length + 1 ∧
    (∀ c ∈ (category_step env pid db t).categories, c.id.isSome = true) := by
  cases hfind : db.categories.find? (fun c => ciEq c.name t) with
  | some c =>
    have hmem := List.mem_of_find?_eq_some hfind
    have hid := hids c hmem
    obtain ⟨cid, hcid⟩ := Option.isSome_iff_exists.mp hid
    simp only [category_step, CategoryRepository.get_or_create_by_name,
      CategoryRepository.get_by_name, CategoryRepository.link_page_to_category,
      DB.tick, hfind, hcid, hlink, Bool.false_eq_true, if_false]
    refine ⟨by simp, ?_⟩
    simpa using hids
  | none =>
    have happ : ∀ nid : Nat,
        (db.categories ++
          ([{ id := some nid, name := t, text_content := "", status := "stub" }] :
            List Category)).find? (fun c => ciEq c.name t) =
        some { id := some nid, name := t, text_content := "", status := "stub" } := by
      intro nid
      rw [List.find?_append, hfind]
      simp [ciEq_refl]
    simp only [category_step, CategoryRepository.get_or_create_by_name,
      CategoryRepository.get_by_name, CategoryRepository.create,
      CategoryRepository.link_page_to_category, DB.tick, hfind, hcat, happ, hlink,
      Bool.false_eq_true, if_false]
    refine ⟨by simp, ?_⟩
    intro c hc
    simp at hc
    rcases hc with hc | hc
    · exact hids c hc
    · rw [hc]
      rfl

/-- The category loop under a failure-free environment appends one link
row per non-empty trimmed token — duplicates included. -/
lemma process_categories_links_length (env : Env) (db : DB) (pid : Nat) (cs : String)
    (hcat : ∀ nm, env.categoryInsertFails nm = false)
    (hlink : ∀ p c, env.linkInsertFails p c = false)
    (hids : ∀ c ∈ db.categories, c.id.isSome = true) :
    (process_categories_for_page env db pid cs).links.length =
      db.links.length + (parseCats cs).length := by
  unfold process_categories_for_page
  generalize parseCats cs = l
  induction l generalizing db with
  | nil => simp
  | cons t rest ih =>
    simp only [List.foldl_cons, List.length_cons]
    obtain ⟨h1, h2⟩ := category_step_spec env pid db t (hcat t) hlink hids
    rw [ih (category_step env pid db t) h2, h1]
    omega

end KRA

namespace KRA

/-- C5: for a created page, the number of link insertions equals the
number of non-empty trimmed semicolon-separated tokens of the categories
field; the tokenization of A; B ;C is exactly A, B, C, producing three
links to those three categories, and a duplicated token produces a
duplicate link row. -/
theorem c5_category_fanout (env : Env) (db : DB) (pid : Nat) (cs : String)
    (hcat : ∀ nm, env.categoryInsertFails nm = false)
    (hlink : ∀ p c, env.linkInsertFails p c = false)
    (hids : ∀ c ∈ db.categories, c.id.isSome = true) :
    (process_categories_for_page env db pid cs).links.length =
      db.links.length + (parseCats cs).length ∧
    parseCats "A; B ;C" = ["A", "B", "C"] ∧
    (process_categories_for_page {} {} 1 "A; B ;C").links =
      [{ page_id := 1, category_id := 1 }, { page_id := 1, category_id := 2 },
       { page_id := 1, category_id := 3 }] ∧
    (process_categories_for_page {} {} 1 "A; B ;C").categories.map (fun c => c.name) =
      ["A", "B", "C"] ∧
    (process_categories_for_page {} {} 1 "A;A").links =
      [{ page_id := 1, category_id := 1 }, { page_id := 1, category_id := 1 }] := by
  refine ⟨process_categories_links_length env db pid cs hcat hlink hids, ?_, ?_, ?_, ?_⟩ <;> rfl

/-- C5 witness: three tokens of A; B ;C mean exactly three appended links
on an empty store. -/
theorem c5_witness :
    (process_categories_for_page {} {} 1 "A; B ;C").links.length =
      ({} : DB).links.length + (parseCats "A; B ;C").length :=
  (c5_category_fanout {} {} 1 "A; B ;C" (fun _ => rfl) (fun _ _ => rfl)
    (fun c hc => absurd hc (List.not_mem_nil c))).1

end KRA

namespace KRA

lemma resolve_opt_project_link_irrel (env : Env) (f : Nat → Nat → Bool) :
    resolve_opt_project { env with linkInsertFails := f } = resolve_opt_project env := rfl

lemma resolve_opt_namespace_link_irrel (env : Env) (f : Nat → Nat → Bool) :
    resolve_opt_namespace { env with linkInsertFails := f } = resolve_opt_namespace env := rfl

lemma create_link_irrel (env : Env) (f : Nat → Nat → Bool) :
    PageRepository.create { env with linkInsertFails := f } = PageRepository.create env := rfl

/-- Link-insert failures cannot change a row's outcome or the page table:
every step before the category loop ignores the link flag, and the
category loop never touches the page table. -/
lemma process_row_link_env (env : Env) (f : Nat → Nat → Bool) (s : EtlState) (r : Record) :
    (process_row_with_repository { env with linkInsertFails := f } s r).1 =
      (process_row_with_repository env s r).1 ∧
    (process_row_with_repository { env with linkInsertFails := f } s r).2.db.pages =
      (process_row_with_repository env s r).2.db.pages := by
  unfold process_row_with_repository process_row_body
  rw [resolve_opt_project_link_irrel, resolve_opt_namespace_link_irrel, create_link_irrel]
  dsimp only
  by_cases ht : titleKey r = ""
  · simp only [if_pos ht]
    exact ⟨trivial, trivial⟩
  · simp only [if_neg ht]
    rcases hgt : PageRepository.get_by_title s.db (titleKey r) with ⟨o1, db₁⟩
    cases o1 with
    | some p => exact ⟨rfl, rfl⟩
    | none =>
      dsimp only
      rcases hrp : resolve_opt_project env r.project_name { s with db := db₁ } with ⟨res₂, s₂⟩
      cases res₂ with
      | error e => exact ⟨rfl, rfl⟩
      | ok pid =>
        dsimp only
        rcases hrn : resolve_opt_namespace env r.namespace_name s₂ with ⟨res₃, s₃⟩
        cases res₃ with
        | error e => exact ⟨rfl, rfl⟩
        | ok nid =>
          dsimp only
          cases hv : viewsOf r.view_count with
          | none => exact ⟨rfl, rfl⟩
          | some v =>
            dsimp only
            rcases hcr : PageRepository.create env s₃.db
                { title := titleKey r, text := strTrim (cellStr "" r.text), views := v,
                  project_id := pid, namespace_id := nid, status := "stub" }
              with ⟨o4, db₄⟩
            cases o4 with
            | none => exact ⟨rfl, rfl⟩
            | some cp =>
              dsimp only
              cases hid : cp.id with
              | none => exact ⟨rfl, rfl⟩
              | some pid2 =>
                dsimp only
                cases hcs : catStrOf r.categories with
                | none => exact ⟨rfl, rfl⟩
                | some cs =>
                  dsimp only
                  refine ⟨rfl, ?_⟩
                  rw [process_categories_pages, process_categories_pages]

/-- C6: category-link failures are isolated: an arbitrary link-failure
pattern changes neither the row's return value nor the page table, and in
the concrete scenario where only the link for category B fails the page is
still created (true), categories A, B, C all exist, and exactly the links
to A and C are stored. -/
theorem c6_link_failure_isolated (env : Env) (f : Nat → Nat → Bool) (s : EtlState) (r : Record) :
    (process_row_with_repository { env with linkInsertFails := f } s r).1 =
      (process_row_with_repository env s r).1 ∧
    (process_row_with_repository { env with linkInsertFails := f } s r).2.db.pages =
      (process_row_with_repository env s r).2.db.pages ∧
    (process_row_with_repository
        { linkInsertFails := fun p c => p == 1 && c == 2 } { db := {} }
        { title := Cell.str "T", categories := Cell.str "A;B;C" }).1 = true ∧
    (process_row_with_repository
        { linkInsertFails := fun p c => p == 1 && c == 2 } { db := {} }
        { title := Cell.str "T", categories := Cell.str "A;B;C" }).2.db.links =
      [{ page_id := 1, category_id := 1 }, { page_id := 1, category_id := 3 }] ∧
    (process_row_with_repository
        { linkInsertFails := fun p c => p == 1 && c == 2 } { db := {} }
        { title := Cell.str "T", categories := Cell.str "A;B;C" }).2.db.categories.map
        (fun c => c.name) = ["A", "B", "C"] ∧
    (process_row_with_repository
        { linkInsertFails := fun p c => p == 1 && c == 2 } { db := {} }
        { title := Cell.str "T", categories := Cell.str "A;B;C" }).2.db.pages.map
        (fun p => p.title) = ["T"] := by
  obtain ⟨h1, h2⟩ := process_row_link_env env f s r
  exact ⟨h1, h2, rfl, rfl, rfl, rfl⟩

/-- C8 witness: a whitespace-only title is skipped and the state is left
exactly as it was. -/
theorem c8_witness :
    process_row_with_repository {} { db := {} } { title := Cell.str "   " } =
      (false, ({ db := {} } : EtlState)) :=
  (c8_blank_title_skips_without_storage {} { db := {} }
    { title := Cell.str "   " } (by decide)).1

end KRA
